import Mathlib

/-!
# Verification of the Mouth Trap game core

Shallow embedding of the game logic of `script.js` (the Flappy-Bird-style
"MOUTH TRAP" game): physics constants, the player/world state, the per-tick
`update`, obstacle spawning (`spawnPipe`), the AABB collision test
(`rectsOverlap`), the input handler (`flap`), the reset (`resetGame`), and the
startup best-score read (`Number(localStorage.getItem(KEY) || 0)`).

JavaScript numbers are modelled as exact rationals (`ℚ`); the structural
claims verified here (order of operations, clamps, monotonicity, scoring
idempotence) do not depend on float rounding.  `Math.random()` draws are
modelled as oracle parameters in `[0,1)`.  Persistence writes
(`localStorage.setItem`) are modelled as an append-only log carried in the
world state.
-/

namespace MouthTrap

/-- `const GRAVITY = 0.45` -/
def GRAVITY : ℚ := 0.45

/-- `const FLAP_STRENGTH = -7.5` -/
def FLAP_STRENGTH : ℚ := -7.5

/-- `const PIPE_GAP_MIN = 140` -/
def PIPE_GAP_MIN : ℚ := 140

/-- `const PIPE_GAP_MAX = 200` -/
def PIPE_GAP_MAX : ℚ := 200

/-- `const PIPE_WIDTH = 70` -/
def PIPE_WIDTH : ℚ := 70

/-- `const PIPE_INTERVAL_MS = 1400` -/
def PIPE_INTERVAL_MS : ℚ := 1400

/-- `const SCROLL_SPEED = 2.6` -/
def SCROLL_SPEED : ℚ := 2.6

/-- `const MOUTH_SIZE = 32` -/
def MOUTH_SIZE : ℚ := 32

/-- `const GROUND_HEIGHT = 80` -/
def GROUND_HEIGHT : ℚ := 80

/-- One teeth obstacle, as pushed by `spawnPipe`:
`{ x, width, topHeight, gap, passed }`. -/
structure Pipe where
  x : ℚ
  width : ℚ
  topHeight : ℚ
  gap : ℚ
  passed : Bool
deriving DecidableEq, Repr

/-- The scoring/game-over accumulator threaded through the pipes loop of
`update`: the mutable variables `score`, `best` and `isGameOver`, plus the
append-only log of `localStorage.setItem('mouth_trap_best', …)` writes. -/
structure ScoreAcc where
  score : ℚ
  best : ℚ
  writes : List ℚ
  gameOver : Bool
deriving DecidableEq, Repr

/-- The game's mutable world state: the script-level variables `mouthY`,
`mouthX`, `mouthVelY`, `pipes`, `lastPipeAt`, `score`, `best`, `isRunning`,
`isGameOver`, `backgroundOffset`, together with the canvas dimensions read by
the game logic and the persistence-write log. -/
structure GameState where
  canvasWidth : ℚ
  canvasHeight : ℚ
  mouthY : ℚ
  mouthX : ℚ
  mouthVelY : ℚ
  pipes : List Pipe
  lastPipeAt : ℚ
  score : ℚ
  best : ℚ
  isRunning : Bool
  isGameOver : Bool
  backgroundOffset : ℚ
  writes : List ℚ
deriving DecidableEq, Repr

/-- JavaScript `%` (remainder).  For the nonnegative dividend and positive
divisor used by `update` (`backgroundOffset + SCROLL_SPEED`, `canvas.width`)
truncated remainder coincides with the floor version used here. -/
def jsMod (a b : ℚ) : ℚ := a - b * (⌊a / b⌋ : ℚ)

/-- `function rectsOverlap(ax, ay, aw, ah, bx, by, bw, bh)`:
`ax < bx + bw && ax + aw > bx && ay < by + bh && ay + ah > by`
(the `by` parameter is renamed `bY`, `by` being a Lean keyword). -/
def rectsOverlap (ax ay aw ah bx bY bw bh : ℚ) : Bool :=
  decide (ax < bx + bw) && decide (ax + aw > bx) &&
  decide (ay < bY + bh) && decide (ay + ah > bY)

/-- `function spawnPipe()`, with the two `Math.random()` draws (first for the
gap size, then for the top height) passed as oracle parameters `r1 r2`. -/
def spawnPipe (canvasWidth canvasHeight r1 r2 : ℚ) : Pipe :=
  let gap := PIPE_GAP_MIN + r1 * (PIPE_GAP_MAX - PIPE_GAP_MIN)
  let topLimit : ℚ := 40
  let bottomLimit := canvasHeight - GROUND_HEIGHT - 40 - gap
  let topHeight := topLimit + r2 * (bottomLimit - topLimit)
  { x := canvasWidth + PIPE_WIDTH
    width := PIPE_WIDTH
    topHeight := topHeight
    gap := gap
    passed := false }

/-- The physics block of `update` (`mouthVelY += GRAVITY; mouthY += mouthVelY;`
followed by the ceiling clamp and the ground clamp).  Returns the new
`mouthY`, the new `mouthVelY`, and whether the ground clamp set
`isGameOver = true`. -/
def physicsStep (canvasHeight y vel : ℚ) : ℚ × ℚ × Bool :=
  let vel1 := vel + GRAVITY
  let y1 := y + vel1
  let y2 := if y1 < 0 then 0 else y1
  let vel2 := if y1 < 0 then 0 else vel1
  let groundY := canvasHeight - GROUND_HEIGHT - MOUTH_SIZE
  if y2 > groundY then (groundY, vel2, true) else (y2, vel2, false)

/-- One iteration of the pipes loop of `update` on pipe `p`: advance `x` by
`SCROLL_SPEED`; if past the removal threshold return `none` (the
`pipes.splice` branch); otherwise evaluate scoring (with the best-score update
and persistence write) and collision.  The nested conditionals mirror the
source branches exactly. -/
def stepPipe (mx my ch : ℚ) (p : Pipe) (acc : ScoreAcc) : Option Pipe × ScoreAcc :=
  if p.x - SCROLL_SPEED + p.width < -10 then (none, acc)
  else
    let collide :=
      rectsOverlap mx my MOUTH_SIZE MOUTH_SIZE
        (p.x - SCROLL_SPEED) 0 p.width p.topHeight ||
      rectsOverlap mx my MOUTH_SIZE MOUTH_SIZE
        (p.x - SCROLL_SPEED) (p.topHeight + p.gap) p.width
        (ch - GROUND_HEIGHT - (p.topHeight + p.gap))
    if p.passed = false ∧ p.x - SCROLL_SPEED + p.width / 2 < mx + MOUTH_SIZE / 2 then
      if acc.score + 1 > acc.best then
        (some { p with x := p.x - SCROLL_SPEED, passed := true },
         ⟨acc.score + 1, acc.score + 1, acc.writes ++ [acc.score + 1],
          acc.gameOver || collide⟩)
      else
        (some { p with x := p.x - SCROLL_SPEED, passed := true },
         ⟨acc.score + 1, acc.best, acc.writes, acc.gameOver || collide⟩)
    else
      (some { p with x := p.x - SCROLL_SPEED },
       ⟨acc.score, acc.best, acc.writes, acc.gameOver || collide⟩)

/-- The pipes loop of `update`: the source iterates from the last index down
to `0`, splicing removed pipes in place; functionally the tail of the list is
processed first and the accumulator then flows into the head's iteration,
with kept pipes retaining their relative order. -/
def processPipes (mx my ch : ℚ) : List Pipe → ScoreAcc → List Pipe × ScoreAcc
  | [], acc => ([], acc)
  | p :: rest, acc =>
    let pr := processPipes mx my ch rest acc
    let st := stepPipe mx my ch p pr.2
    (st.1.elim pr.1 (fun q => q :: pr.1), st.2)

/-- `function update(dt)`: early return while `isGameOver`; physics and
clamps; background scroll; the pipes loop; spawn-timer accumulation and
spawning.  `r1 r2` are the `Math.random()` draws consumed if a spawn
happens this tick. -/
def update (dt r1 r2 : ℚ) (s : GameState) : GameState :=
  if s.isGameOver then s
  else
    let ph := physicsStep s.canvasHeight s.mouthY s.mouthVelY
    let bg := jsMod (s.backgroundOffset + SCROLL_SPEED) s.canvasWidth
    let pr := processPipes s.mouthX ph.1 s.canvasHeight s.pipes
      ⟨s.score, s.best, s.writes, ph.2.2⟩
    let t := s.lastPipeAt + dt
    { s with
      mouthY := ph.1
      mouthVelY := ph.2.1
      backgroundOffset := bg
      pipes := if t > PIPE_INTERVAL_MS then
          pr.1 ++ [spawnPipe s.canvasWidth s.canvasHeight r1 r2]
        else pr.1
      lastPipeAt := if t > PIPE_INTERVAL_MS then 0 else t
      score := pr.2.score
      best := pr.2.best
      writes := pr.2.writes
      isGameOver := pr.2.gameOver }

/-- `function resetGame()`: restore every mutable per-run variable; `best`,
`isRunning` and the write log are untouched. -/
def resetGame (s : GameState) : GameState :=
  { s with
    mouthY := s.canvasHeight / 2
    mouthX := s.canvasWidth * 0.28
    mouthVelY := 0
    pipes := []
    lastPipeAt := 0
    score := 0
    isGameOver := false
    backgroundOffset := 0 }

/-- `function flap()`: start the loop if not running; if `isGameOver`, reset
and return (no impulse); otherwise `mouthVelY = FLAP_STRENGTH`.  (The
`lastTimestamp` / `requestAnimationFrame` bookkeeping is loop-driver
plumbing outside the world state.) -/
def flap (s : GameState) : GameState :=
  let s1 := if s.isRunning then s else { s with isRunning := true }
  if s1.isGameOver then resetGame s1
  else { s1 with mouthVelY := FLAP_STRENGTH }

/-- A sequence of ticks: each list entry is one `(dt, r1, r2)` invocation of
`update`. -/
def runTicks : List (ℚ × ℚ × ℚ) → GameState → GameState
  | [], s => s
  | t :: rest, s => runTicks rest (update t.1 t.2.1 t.2.2 s)

/-! ## Model of the startup best-score read

`let best = Number(localStorage.getItem('mouth_trap_best') || 0);`

`getItem` returns the stored string or `null`.  `null` and `""` are falsy, so
`x || 0` yields `0` for them and the string otherwise; `Number` then converts.
The conversion is modelled on JS string-to-number semantics for whitespace,
sign, `Infinity`, and decimal literals (integer part, optional fraction,
optional exponent); the hex/octal/binary literal forms, irrelevant to every
statement below, are not modelled. -/

/-- The result of JS `Number()`: NaN, an infinity, or a (rational) number. -/
inductive JsNum where
  | nan : JsNum
  | posInf : JsNum
  | negInf : JsNum
  | num : ℚ → JsNum
deriving DecidableEq, Repr

/-- JS whitespace test (space, tab, LF, CR), on code points. -/
def isWsC (c : Char) : Bool :=
  c.toNat = 32 || c.toNat = 9 || c.toNat = 10 || c.toNat = 13

/-- Decimal-digit test, on code points. -/
def isDigitC (c : Char) : Bool := 48 ≤ c.toNat && c.toNat ≤ 57

/-- Strip leading and trailing whitespace. -/
def trimWs (cs : List Char) : List Char :=
  ((cs.dropWhile isWsC).reverse.dropWhile isWsC).reverse

/-- The natural number denoted by a string of decimal digits. -/
def digitsVal (cs : List Char) : ℕ :=
  cs.foldl (fun a c => 10 * a + (c.toNat - 48)) 0

/-- Parse the (possibly empty) exponent suffix of a decimal literal:
the empty string denotes exponent `0`; otherwise `e`/`E`, an optional sign,
and at least one digit, consuming the whole input. -/
def parseExpPart : List Char → Option ℤ
  | [] => some 0
  | c :: rest =>
    if c.toNat = 101 ∨ c.toNat = 69 then
      match rest with
      | '+' :: ds =>
        if ds ≠ [] ∧ ds.all isDigitC then some (digitsVal ds) else none
      | '-' :: ds =>
        if ds ≠ [] ∧ ds.all isDigitC then some (-(digitsVal ds : ℤ)) else none
      | ds =>
        if ds ≠ [] ∧ ds.all isDigitC then some (digitsVal ds) else none
    else none

/-- Parse an unsigned decimal literal (`digits`, `digits.digits`, `.digits`,
each with an optional exponent), consuming the whole input. -/
def parseDec (cs : List Char) : Option ℚ :=
  let ip := cs.takeWhile isDigitC
  let rest := cs.dropWhile isDigitC
  match rest with
  | '.' :: r =>
    let fp := r.takeWhile isDigitC
    let rest2 := r.dropWhile isDigitC
    if ip = [] ∧ fp = [] then none
    else (parseExpPart rest2).map
      (fun e => ((digitsVal ip : ℚ) + (digitsVal fp : ℚ) / 10 ^ fp.length) * (10 : ℚ) ^ e)
  | _ =>
    if ip = [] then none
    else (parseExpPart rest).map (fun e => (digitsVal ip : ℚ) * (10 : ℚ) ^ e)

/-- The characters of `"Infinity"`. -/
def infinityChars : List Char := ['I', 'n', 'f', 'i', 'n', 'i', 't', 'y']

/-- JS `Number()` on a trimmed character sequence: empty means `0`; an
optional sign is followed by `Infinity` or a decimal literal; anything else
is NaN. -/
def jsNumberOfChars (cs : List Char) : JsNum :=
  match cs with
  | [] => .num 0
  | c :: r =>
    if c.toNat = 43 then
      if r = infinityChars then .posInf
      else match parseDec r with
        | some q => .num q
        | none => .nan
    else if c.toNat = 45 then
      if r = infinityChars then .negInf
      else match parseDec r with
        | some q => .num (-q)
        | none => .nan
    else
      if cs = infinityChars then .posInf
      else match parseDec cs with
        | some q => .num q
        | none => .nan

/-- JS `Number()` on a string. -/
def jsNumber (s : String) : JsNum := jsNumberOfChars (trimWs s.data)

/-- `Number(localStorage.getItem('mouth_trap_best') || 0)`: the initial value
of `best`.  `stored` is the `getItem` result (`none` = `null`). -/
def readBest (stored : Option String) : JsNum :=
  match stored with
  | none => .num 0
  | some s => if s = "" then .num 0 else jsNumber s

/-! ## Concrete states used by witnesses and counterexamples -/

/-- A running world holding a single unpassed obstacle at `x = 0`, with the
player horizontally clear of it and the ground far below: the scenario of the
spec's removal example. -/
def s7 : GameState :=
  { canvasWidth := 1000
    canvasHeight := 10000
    mouthY := 100
    mouthX := 280
    mouthVelY := 0
    pipes := [{ x := 0, width := 70, topHeight := 100, gap := 150, passed := false }]
    lastPipeAt := 0
    score := 0
    best := 0
    isRunning := true
    isGameOver := false
    backgroundOffset := 0
    writes := [] }

/-- A game-over world with non-trivial contents. -/
def s8 : GameState :=
  { canvasWidth := 600
    canvasHeight := 900
    mouthY := 788
    mouthX := 168
    mouthVelY := 9
    pipes := [{ x := 300, width := 70, topHeight := 120, gap := 160, passed := true }]
    lastPipeAt := 700
    score := 3
    best := 5
    isRunning := true
    isGameOver := true
    backgroundOffset := 52
    writes := [] }

/-- An invalid stored best-score string. -/
def strAbc : String := "abc"

/-- The `(dt, r1, r2)` triple of an idle tick (`dt = 0`, so no spawn). -/
def tick0 : ℚ × ℚ × ℚ := (0, 0, 0)

/-! ## The scoring-accumulator refinement relation

`AccRel a b` packages what one pass of the scoring loop guarantees between an
earlier accumulator `a` and a later accumulator `b`, under the run invariant
`score ≤ best`: the best score is the maximum of the old best and the new
score, the score never decreases, the write log only grows, and it grows
exactly when the score exceeded the old best. -/
def AccRel (a b : ScoreAcc) : Prop :=
  a.score ≤ a.best →
    (b.best = max a.best b.score ∧ a.score ≤ b.score ∧ b.score ≤ b.best ∧
     (∃ d, b.writes = a.writes ++ d) ∧ (b.writes = a.writes ↔ b.score ≤ a.best))

/-- The scoring accumulator embedded in a world state. -/
def accOf (s : GameState) : ScoreAcc := ⟨s.score, s.best, s.writes, s.isGameOver⟩

end MouthTrap

namespace MouthTrap

/-! ## Supporting lemmas on the scoring loop -/

/-- One pipe iteration never decreases the score. -/
theorem stepPipe_score_le (mx my ch : ℚ) (p : Pipe) (acc : ScoreAcc) :
    acc.score ≤ (stepPipe mx my ch p acc).2.score := by
  unfold stepPipe
  split_ifs <;> simp

/-- The whole pipes loop never decreases the score. -/
theorem processPipes_score_le (mx my ch : ℚ) (l : List Pipe) (acc : ScoreAcc) :
    acc.score ≤ (processPipes mx my ch l acc).2.score := by
  induction l with
  | nil => simp [processPipes]
  | cons p rest ih =>
    calc acc.score ≤ (processPipes mx my ch rest acc).2.score := ih
      _ ≤ (stepPipe mx my ch p (processPipes mx my ch rest acc).2).2.score :=
        stepPipe_score_le ..
      _ = (processPipes mx my ch (p :: rest) acc).2.score := rfl

/-- One tick never decreases the score. -/
theorem update_score_le (dt r1 r2 : ℚ) (s : GameState) :
    s.score ≤ (update dt r1 r2 s).score := by
  unfold update
  split_ifs with h
  · exact le_refl _
  · exact processPipes_score_le ..

/-- A tick sequence never decreases the score. -/
theorem runTicks_score_le (L : List (ℚ × ℚ × ℚ)) (s : GameState) :
    s.score ≤ (runTicks L s).score := by
  induction L generalizing s with
  | nil => exact le_refl _
  | cons t rest ih =>
    calc s.score ≤ (update t.1 t.2.1 t.2.2 s).score := update_score_le ..
      _ ≤ (runTicks rest (update t.1 t.2.1 t.2.2 s)).score := ih _
      _ = (runTicks (t :: rest) s).score := rfl

/-- One pipe iteration preserves an already-set game-over flag. -/
theorem stepPipe_gameOver (mx my ch : ℚ) (p : Pipe) (acc : ScoreAcc)
    (h : acc.gameOver = true) : (stepPipe mx my ch p acc).2.gameOver = true := by
  unfold stepPipe
  split_ifs <;> simp [h]

/-- The pipes loop preserves an already-set game-over flag. -/
theorem processPipes_gameOver (mx my ch : ℚ) (l : List Pipe) (acc : ScoreAcc)
    (h : acc.gameOver = true) : (processPipes mx my ch l acc).2.gameOver = true := by
  induction l with
  | nil => exact h
  | cons p rest ih => exact stepPipe_gameOver mx my ch p _ ih

theorem accRel_refl (a : ScoreAcc) : AccRel a a := by
  intro h
  exact ⟨(max_eq_left h).symm, le_refl _, h, ⟨[], by simp⟩, by simp [h]⟩

/-- One pipe iteration satisfies the accumulator contract. -/
theorem stepPipe_accRel (mx my ch : ℚ) (p : Pipe) (acc : ScoreAcc) :
    AccRel acc (stepPipe mx my ch p acc).2 := by
  intro h
  unfold stepPipe
  split_ifs with h1 h2 h3
  · exact ⟨(max_eq_left h).symm, le_refl _, h, ⟨[], by simp⟩, by simp [h]⟩
  · refine ⟨?_, by simp, by simp, ⟨[acc.score + 1], by simp⟩, ?_⟩
    · simp [max_eq_right (le_of_lt h3)]
    · simp only [ScoreAcc.writes, ScoreAcc.score]
      constructor
      · intro hw
        exfalso
        have := congrArg List.length hw
        simp at this
      · intro hle
        exfalso
        exact absurd hle (not_le.mpr h3)
  · refine ⟨?_, by simp, by simpa using not_lt.mp h3, ⟨[], by simp⟩, ?_⟩
    · simp [max_eq_left (not_lt.mp h3)]
    · simpa using not_lt.mp h3
  · exact ⟨(max_eq_left h).symm, le_refl _, h, ⟨[], by simp⟩, by simp [h]⟩

theorem accRel_trans {a b c : ScoreAcc} (hab : AccRel a b) (hbc : AccRel b c) :
    AccRel a c := by
  intro h
  obtain ⟨hb1, hb2, hb3, ⟨d1, hd1⟩, hb5⟩ := hab h
  obtain ⟨hc1, hc2, hc3, ⟨d2, hd2⟩, hc5⟩ := hbc hb3
  refine ⟨?_, le_trans hb2 hc2, hc3,
    ⟨d1 ++ d2, by rw [hd2, hd1, List.append_assoc]⟩, ?_⟩
  · rw [hc1, hb1, max_assoc, max_eq_right hc2]
  · constructor
    · intro hw
      rw [hd2, hd1, List.append_assoc] at hw
      have hlen := congrArg List.length hw
      simp only [List.length_append] at hlen
      have hd1e : d1 = [] := List.eq_nil_of_length_eq_zero (by omega)
      have hd2e : d2 = [] := List.eq_nil_of_length_eq_zero (by omega)
      have hba : b.score ≤ a.best := hb5.mp (by rw [hd1, hd1e, List.append_nil])
      have hcb : c.score ≤ b.best := hc5.mp (by rw [hd2, hd2e, List.append_nil])
      calc c.score ≤ b.best := hcb
        _ = a.best := by rw [hb1, max_eq_left hba]
    · intro hle
      have hba : b.score ≤ a.best := le_trans hc2 hle
      have hcb : c.score ≤ b.best := le_trans hle (by rw [hb1]; exact le_max_left _ _)
      rw [hc5.mpr hcb, hb5.mpr hba]

/-- The pipes loop satisfies the accumulator contract. -/
theorem processPipes_accRel (mx my ch : ℚ) (l : List Pipe) (acc : ScoreAcc) :
    AccRel acc (processPipes mx my ch l acc).2 := by
  induction l with
  | nil => exact accRel_refl acc
  | cons p rest ih => exact accRel_trans ih (stepPipe_accRel mx my ch p _)

/-- One tick satisfies the accumulator contract on the world state. -/
theorem update_accRel (dt r1 r2 : ℚ) (s : GameState) :
    AccRel (accOf s) (accOf (update dt r1 r2 s)) := by
  unfold update
  split_ifs with h
  · exact accRel_refl _
  · intro hsb
    exact processPipes_accRel s.mouthX (physicsStep s.canvasHeight s.mouthY s.mouthVelY).1
      s.canvasHeight s.pipes
      ⟨s.score, s.best, s.writes, (physicsStep s.canvasHeight s.mouthY s.mouthVelY).2.2⟩ hsb

/-- A tick sequence satisfies the accumulator contract on the world state. -/
theorem runTicks_accRel (L : List (ℚ × ℚ × ℚ)) (s : GameState) :
    AccRel (accOf s) (accOf (runTicks L s)) := by
  induction L generalizing s with
  | nil => exact accRel_refl _
  | cons t rest ih => exact accRel_trans (update_accRel t.1 t.2.1 t.2.2 s) (ih _)

/-! ## Supporting lemmas for the best-score read model -/

/-- `takeWhile`/`dropWhile` on a list all of whose elements satisfy the
predicate. -/
theorem takeWhile_all_eq {p : Char → Bool} :
    ∀ cs : List Char, cs.all p = true →
      cs.takeWhile p = cs ∧ cs.dropWhile p = []
  | [], _ => ⟨rfl, rfl⟩
  | c :: r, h => by
    simp only [List.all_cons, Bool.and_eq_true] at h
    have ih := takeWhile_all_eq r h.2
    simp [List.takeWhile_cons, List.dropWhile_cons, h.1, ih.1, ih.2]

/-- A digit string has no leading whitespace. -/
theorem dropWhile_ws_of_digits :
    ∀ cs : List Char, cs.all isDigitC = true → cs.dropWhile isWsC = cs
  | [], _ => rfl
  | c :: r, h => by
    simp only [List.all_cons, Bool.and_eq_true] at h
    have hd := h.1
    have hw : isWsC c = false := by
      simp only [isDigitC, Bool.and_eq_true, decide_eq_true_eq] at hd
      simp only [isWsC, Bool.or_eq_false_iff, decide_eq_false_iff_not]
      omega
    simp [List.dropWhile_cons, hw]

/-- Trimming a digit string is the identity. -/
theorem trimWs_of_digits (cs : List Char) (h : cs.all isDigitC = true) :
    trimWs cs = cs := by
  unfold trimWs
  rw [dropWhile_ws_of_digits cs h,
    dropWhile_ws_of_digits cs.reverse (by simpa using h), List.reverse_reverse]

end MouthTrap

namespace MouthTrap

/-! ## The claims -/

/-- C1: In a tick entered with `gameOver = false`, the physics step adds
`GRAVITY` to the velocity exactly once — independently of `dt`, which the
statement quantifies over — then adds the new velocity to the position, and
then clamps: if the integrated position is negative, position and velocity are
zeroed and the ceiling clamp itself does not set game over (third component of
`physicsStep` is `false`; the stated `0 ≤ groundLimit` reflects a
non-degenerate playfield, the ground clamp being checked after the ceiling
clamp in the source); if the integrated position exceeds
`groundLimit = canvasHeight − GROUND_HEIGHT − MOUTH_SIZE`, the position is
clamped to `groundLimit` and the tick ends with `gameOver = true`. -/
theorem c1_physics (s : GameState) (hgo : s.isGameOver = false) (dt r1 r2 : ℚ) :
    (0 ≤ s.mouthY + (s.mouthVelY + GRAVITY) →
     s.mouthY + (s.mouthVelY + GRAVITY) ≤ s.canvasHeight - GROUND_HEIGHT - MOUTH_SIZE →
     (update dt r1 r2 s).mouthY = s.mouthY + (s.mouthVelY + GRAVITY) ∧
     (update dt r1 r2 s).mouthVelY = s.mouthVelY + GRAVITY) ∧
    (s.mouthY + (s.mouthVelY + GRAVITY) < 0 →
     0 ≤ s.canvasHeight - GROUND_HEIGHT - MOUTH_SIZE →
     (update dt r1 r2 s).mouthY = 0 ∧ (update dt r1 r2 s).mouthVelY = 0 ∧
     (physicsStep s.canvasHeight s.mouthY s.mouthVelY).2.2 = false) ∧
    (s.canvasHeight - GROUND_HEIGHT - MOUTH_SIZE < s.mouthY + (s.mouthVelY + GRAVITY) →
     (update dt r1 r2 s).mouthY = s.canvasHeight - GROUND_HEIGHT - MOUTH_SIZE ∧
     (update dt r1 r2 s).isGameOver = true) := by
  have hY : (update dt r1 r2 s).mouthY =
      (physicsStep s.canvasHeight s.mouthY s.mouthVelY).1 := by
    simp [update, hgo]
  have hV : (update dt r1 r2 s).mouthVelY =
      (physicsStep s.canvasHeight s.mouthY s.mouthVelY).2.1 := by
    simp [update, hgo]
  refine ⟨?_, ?_, ?_⟩
  · intro hlo hhi
    have h1 : ¬(s.mouthY + (s.mouthVelY + GRAVITY) < 0) := not_lt.mpr hlo
    have h2 : ¬(s.mouthY + (s.mouthVelY + GRAVITY) >
        s.canvasHeight - GROUND_HEIGHT - MOUTH_SIZE) := not_lt.mpr hhi
    have hps : physicsStep s.canvasHeight s.mouthY s.mouthVelY =
        (s.mouthY + (s.mouthVelY + GRAVITY), s.mouthVelY + GRAVITY, false) := by
      simp [physicsStep, h1, h2]
    rw [hY, hV, hps]
    exact ⟨rfl, rfl⟩
  · intro hneg hgl
    have h2 : ¬((0:ℚ) > s.canvasHeight - GROUND_HEIGHT - MOUTH_SIZE) := not_lt.mpr hgl
    have hps : physicsStep s.canvasHeight s.mouthY s.mouthVelY = (0, 0, false) := by
      simp [physicsStep, hneg, h2]
    rw [hY, hV, hps]
    exact ⟨rfl, rfl, rfl⟩
  · intro hgt
    have hps : (physicsStep s.canvasHeight s.mouthY s.mouthVelY).1 =
        s.canvasHeight - GROUND_HEIGHT - MOUTH_SIZE ∧
        (physicsStep s.canvasHeight s.mouthY s.mouthVelY).2.2 = true := by
      by_cases hc : s.mouthY + (s.mouthVelY + GRAVITY) < 0
      · have h0 : ((0:ℚ) > s.canvasHeight - GROUND_HEIGHT - MOUTH_SIZE) := by linarith
        simp [physicsStep, hc, h0]
      · simp [physicsStep, hc, hgt]
    refine ⟨by rw [hY, hps.1], ?_⟩
    have hiso : (update dt r1 r2 s).isGameOver =
        (processPipes s.mouthX (physicsStep s.canvasHeight s.mouthY s.mouthVelY).1
          s.canvasHeight s.pipes
          ⟨s.score, s.best, s.writes,
           (physicsStep s.canvasHeight s.mouthY s.mouthVelY).2.2⟩).2.gameOver := by
      simp [update, hgo]
    rw [hiso]
    exact processPipes_gameOver _ _ _ _ _ hps.2

/-- C1 witness: the un-clamped branch of `c1_physics` evaluated in the
concrete running world `s7`. -/
theorem c1_witness :
    s7.isGameOver = false ∧
    (update 16 0 0 s7).mouthY = s7.mouthY + (s7.mouthVelY + GRAVITY) ∧
    (update 16 0 0 s7).mouthVelY = s7.mouthVelY + GRAVITY :=
  ⟨rfl, (c1_physics s7 rfl 16 0 0).1 (by with_unfolding_all decide)
    (by with_unfolding_all decide)⟩

/-- C2: scoring is idempotent and monotone.  Per pipe iteration: an
already-passed obstacle never changes the score and stays passed; an unpassed,
unremoved obstacle whose advanced center is left of the player's center flips
to passed and increments the score by exactly 1 (the flip therefore happens in
the first tick the centers cross, the obstacle's center moving strictly left
every tick); an unpassed obstacle whose center has not crossed stays unpassed
with the score unchanged.  Consequently the score is monotonically
non-decreasing over every tick and every tick sequence. -/
theorem c2_scoring (mx my ch : ℚ) (p : Pipe) (acc : ScoreAcc) :
    (p.passed = true →
      (stepPipe mx my ch p acc).2.score = acc.score ∧
      (∀ q, (stepPipe mx my ch p acc).1 = some q → q.passed = true)) ∧
    (p.passed = false → ¬(p.x - SCROLL_SPEED + p.width < -10) →
      p.x - SCROLL_SPEED + p.width / 2 < mx + MOUTH_SIZE / 2 →
      (stepPipe mx my ch p acc).2.score = acc.score + 1 ∧
      (∀ q, (stepPipe mx my ch p acc).1 = some q → q.passed = true)) ∧
    (p.passed = false → ¬(p.x - SCROLL_SPEED + p.width / 2 < mx + MOUTH_SIZE / 2) →
      (stepPipe mx my ch p acc).2.score = acc.score ∧
      (∀ q, (stepPipe mx my ch p acc).1 = some q → q.passed = false)) ∧
    (∀ dt r1 r2 s, s.score ≤ (update dt r1 r2 s).score) ∧
    (∀ L s, s.score ≤ (runTicks L s).score) := by
  refine ⟨?_, ?_, ?_, fun dt r1 r2 s => update_score_le dt r1 r2 s,
    fun L s => runTicks_score_le L s⟩
  · intro hp
    unfold stepPipe
    split_ifs with h1 h2 h3
    · exact ⟨rfl, fun q hq => by simp at hq⟩
    · exact absurd h2.1 (by simp [hp])
    · exact absurd h2.1 (by simp [hp])
    · refine ⟨rfl, fun q hq => ?_⟩
      simp only [Option.some.injEq] at hq
      subst hq
      exact hp
  · intro hp hkeep hcross
    unfold stepPipe
    split_ifs with h1 h2
    · refine ⟨rfl, fun q hq => ?_⟩
      simp only [Option.some.injEq] at hq
      subst hq
      rfl
    · refine ⟨rfl, fun q hq => ?_⟩
      simp only [Option.some.injEq] at hq
      subst hq
      rfl
    · exact absurd ⟨hp, hcross⟩ h1
  · intro hp hncross
    unfold stepPipe
    split_ifs with h1 h2 h3
    · exact ⟨rfl, fun q hq => by simp at hq⟩
    · exact absurd h2.2 hncross
    · exact absurd h2.2 hncross
    · refine ⟨rfl, fun q hq => ?_⟩
      simp only [Option.some.injEq] at hq
      subst hq
      exact hp

/-- C2 witness: the crossing branch of `c2_scoring` at a concrete unpassed
obstacle: the score goes up by exactly 1. -/
theorem c2_witness :
    Pipe.passed { x := 0, width := 70, topHeight := 100, gap := 150, passed := false } = false ∧
    ¬((0:ℚ) - SCROLL_SPEED + 70 < -10) ∧
    ((0:ℚ) - SCROLL_SPEED + 70 / 2 < 280 + MOUTH_SIZE / 2) ∧
    (stepPipe 280 100 10000 { x := 0, width := 70, topHeight := 100, gap := 150, passed := false }
      ⟨0, 0, [], false⟩).2.score = (⟨0, 0, [], false⟩ : ScoreAcc).score + 1 :=
  ⟨rfl, by with_unfolding_all decide, by with_unfolding_all decide,
    ((c2_scoring 280 100 10000
      { x := 0, width := 70, topHeight := 100, gap := 150, passed := false }
      ⟨0, 0, [], false⟩).2.1 rfl (by with_unfolding_all decide)
      (by with_unfolding_all decide)).1⟩

/-- C3: under the run invariant `score ≤ best` (true from startup, where
`score = 0 ≤ best`): the game-over reset zeroes the score but leaves the best
score unchanged (and so does `flap`); a tick never decreases the best score;
after any tick sequence the best score equals the maximum of its initial value
and the final score — which, scores being monotone within a run (C2), is the
maximum score reached; and a tick performs a persistence write if and only if
its score exceeds the best score at tick entry. -/
theorem c3_best (s : GameState) (hsb : s.score ≤ s.best) :
    ((resetGame s).best = s.best ∧ (resetGame s).score = 0) ∧
    (flap s).best = s.best ∧
    (∀ dt r1 r2, s.best ≤ (update dt r1 r2 s).best) ∧
    (∀ L, (runTicks L s).best = max s.best (runTicks L s).score) ∧
    (∀ dt r1 r2, ¬((update dt r1 r2 s).writes = s.writes) ↔
      s.best < (update dt r1 r2 s).score) := by
  refine ⟨⟨rfl, rfl⟩, ?_, ?_, ?_, ?_⟩
  · simp only [flap, resetGame]
    split_ifs <;> rfl
  · intro dt r1 r2
    have h := update_accRel dt r1 r2 s hsb
    simp only [accOf] at h
    rw [h.1]
    exact le_max_left _ _
  · intro L
    have h := runTicks_accRel L s hsb
    simp only [accOf] at h
    exact h.1
  · intro dt r1 r2
    have h := update_accRel dt r1 r2 s hsb
    simp only [accOf] at h
    rw [h.2.2.2.2, not_le]

/-- C3 witness: the reset clause of `c3_best` at the concrete game-over world
`s8` (score 3, best 5). -/
theorem c3_witness :
    s8.score ≤ s8.best ∧ (resetGame s8).best = s8.best ∧ (resetGame s8).score = 0 :=
  ⟨by with_unfolding_all decide, (c3_best s8 (by with_unfolding_all decide)).1⟩

/-- C4: a spawned obstacle, for random draws in `[0,1)` and a placement
envelope that is valid for the drawn gap
(`canvasHeight − GROUND_HEIGHT − 40 − gap > 40`), has its gap size in
`[140, 200]`, its top height in `[40, canvasHeight − 80 − 40 − gap]` (hence
`topHeight + gap ≤ canvasHeight − 80 − 40`), and spawns fully off-screen right
at `x = canvasWidth + PIPE_WIDTH`. -/
theorem c4_spawn_bounds (w h r1 r2 : ℚ) (h1 : 0 ≤ r1) (h2 : r1 < 1)
    (h3 : 0 ≤ r2) (h4 : r2 < 1)
    (henv : 40 < h - GROUND_HEIGHT - 40 - (spawnPipe w h r1 r2).gap) :
    140 ≤ (spawnPipe w h r1 r2).gap ∧ (spawnPipe w h r1 r2).gap ≤ 200 ∧
    40 ≤ (spawnPipe w h r1 r2).topHeight ∧
    (spawnPipe w h r1 r2).topHeight ≤ h - 80 - 40 - (spawnPipe w h r1 r2).gap ∧
    (spawnPipe w h r1 r2).topHeight + (spawnPipe w h r1 r2).gap ≤ h - 80 - 40 ∧
    (spawnPipe w h r1 r2).x = w + PIPE_WIDTH := by
  simp only [spawnPipe, GROUND_HEIGHT, PIPE_GAP_MIN, PIPE_GAP_MAX, PIPE_WIDTH] at henv ⊢
  have hg0 : (0:ℚ) ≤ r1 * (200 - 140) := by
    have := mul_nonneg h1 (show (0:ℚ) ≤ 200 - 140 by norm_num)
    linarith
  have hg1 : r1 * (200 - 140) < 1 * (200 - 140) :=
    mul_lt_mul_of_pos_right h2 (by norm_num)
  have hB : (0:ℚ) < h - 80 - 40 - (140 + r1 * (200 - 140)) - 40 := by linarith
  have ht0 : (0:ℚ) ≤ r2 * (h - 80 - 40 - (140 + r1 * (200 - 140)) - 40) :=
    mul_nonneg h3 (le_of_lt hB)
  have ht1 : r2 * (h - 80 - 40 - (140 + r1 * (200 - 140)) - 40) <
      1 * (h - 80 - 40 - (140 + r1 * (200 - 140)) - 40) :=
    mul_lt_mul_of_pos_right h4 hB
  refine ⟨by linarith, by linarith, by linarith, by linarith, by linarith, by trivial⟩

/-- C4 witness: `c4_spawn_bounds` on a 600×900 playfield with both draws
`1/2`. -/
theorem c4_witness :
    (0:ℚ) ≤ 1/2 ∧ (1/2:ℚ) < 1 ∧
    40 < 900 - GROUND_HEIGHT - 40 - (spawnPipe 600 900 (1/2) (1/2)).gap ∧
    40 ≤ (spawnPipe 600 900 (1/2) (1/2)).topHeight ∧
    (spawnPipe 600 900 (1/2) (1/2)).x = 600 + PIPE_WIDTH :=
  ⟨by norm_num, by norm_num, by with_unfolding_all decide,
   (c4_spawn_bounds 600 900 (1/2) (1/2) (by norm_num) (by norm_num) (by norm_num)
     (by norm_num) (by with_unfolding_all decide)).2.2.1,
   (c4_spawn_bounds 600 900 (1/2) (1/2) (by norm_num) (by norm_num) (by norm_num)
     (by norm_num) (by with_unfolding_all decide)).2.2.2.2.2⟩

end MouthTrap

namespace MouthTrap

/-- C5 counterexample: the claim says an invalid stored value yields 0, but
`Number("abc" || 0) = Number("abc")` is NaN, not 0. -/
theorem c5_counterexample :
    readBest (some strAbc) = JsNum.nan ∧ JsNum.nan ≠ JsNum.num 0 := by
  with_unfolding_all decide

/-- C5 (amended): the startup read yields the stored integer when a valid one
is present and yields 0 when the value is absent or the empty string; a
non-empty unparsable string such as `"abc"` yields NaN, not 0. -/
theorem c5_read_best :
    readBest none = JsNum.num 0 ∧
    readBest (some (String.mk [])) = JsNum.num 0 ∧
    (∀ cs : List Char, cs ≠ [] → cs.all isDigitC = true →
      readBest (some (String.mk cs)) = JsNum.num (digitsVal cs)) ∧
    readBest (some strAbc) = JsNum.nan := by
  refine ⟨rfl, by with_unfolding_all decide, ?_, by with_unfolding_all decide⟩
  intro cs hne hall
  have hs : String.mk cs ≠ "" := by
    intro he
    apply hne
    have hd : (String.mk cs).data = ("" : String).data := by rw [he]
    simpa using hd
  have hdata : (String.mk cs).data = cs := rfl
  simp only [readBest, if_neg hs, jsNumber, hdata, trimWs_of_digits cs hall]
  cases cs with
  | nil => exact absurd rfl hne
  | cons c r =>
    have hc : isDigitC c = true := by
      simp only [List.all_cons, Bool.and_eq_true] at hall
      exact hall.1
    have h48 : 48 ≤ c.toNat ∧ c.toNat ≤ 57 := by
      simpa [isDigitC] using hc
    have h43 : ¬(c.toNat = 43) := by omega
    have h45 : ¬(c.toNat = 45) := by omega
    have hinf : ¬(c :: r = infinityChars) := by
      intro he
      have hcI : c = 'I' := by
        have := congrArg (fun l => l.headI) he
        simpa [infinityChars] using this
      rw [hcI] at h48
      have : ('I').toNat = 73 := rfl
      omega
    have htw := takeWhile_all_eq (p := isDigitC) (c :: r) hall
    simp only [jsNumberOfChars, if_neg h43, if_neg h45, if_neg hinf, parseDec,
      htw.1, htw.2]
    simp [parseExpPart]

/-- C5 witness: the digit-string clause of `c5_read_best` on the stored string
`"42"`. -/
theorem c5_witness :
    readBest (some (String.mk ['4', '2'])) = JsNum.num 42 := by
  rw [c5_read_best.2.2.1 ['4', '2'] (by with_unfolding_all decide)
    (by with_unfolding_all decide)]
  with_unfolding_all decide

/-- C6: `rectsOverlap` is true exactly when the two boxes (with positive
extents, which is what makes them boxes) overlap with positive area on both
axes, and boxes that merely touch along an edge do not overlap. -/
theorem c6_overlap_strict (ax ay aw ah bx bY bw bh : ℚ)
    (haw : 0 < aw) (hah : 0 < ah) (hbw : 0 < bw) (hbh : 0 < bh) :
    (rectsOverlap ax ay aw ah bx bY bw bh = true ↔
      (max ax bx < min (ax + aw) (bx + bw) ∧ max ay bY < min (ay + ah) (bY + bh))) ∧
    (ax + aw = bx → rectsOverlap ax ay aw ah bx bY bw bh = false) ∧
    (bx + bw = ax → rectsOverlap ax ay aw ah bx bY bw bh = false) ∧
    (ay + ah = bY → rectsOverlap ax ay aw ah bx bY bw bh = false) ∧
    (bY + bh = ay → rectsOverlap ax ay aw ah bx bY bw bh = false) := by
  refine ⟨?_, ?_, ?_, ?_, ?_⟩
  · unfold rectsOverlap
    simp only [Bool.and_eq_true, decide_eq_true_eq, gt_iff_lt, max_lt_iff, lt_min_iff]
    constructor
    · rintro ⟨⟨⟨h1, h2⟩, h3⟩, h4⟩
      exact ⟨⟨⟨by linarith, h2⟩, h1, by linarith⟩, ⟨by linarith, h4⟩, h3, by linarith⟩
    · rintro ⟨⟨⟨hA, hC⟩, hB, hD⟩, ⟨hA2, hC2⟩, hB2, hD2⟩
      exact ⟨⟨⟨hB, hC⟩, hB2⟩, hC2⟩
  · intro h; simp [rectsOverlap, h]
  · intro h; simp [rectsOverlap, h]
  · intro h; simp [rectsOverlap, h]
  · intro h; simp [rectsOverlap, h]

/-- C6 witness: two unit boxes touching along a vertical edge do not
overlap. -/
theorem c6_witness :
    (0:ℚ) < 1 ∧ rectsOverlap 0 0 1 1 1 0 1 1 = false :=
  ⟨by norm_num, (c6_overlap_strict 0 0 1 1 1 0 1 1 (by norm_num) (by norm_num)
    (by norm_num) (by norm_num)).2.1 (by norm_num)⟩

/-- C7 counterexample: the claim's scenario says an obstacle starting at
`x = 0` is absent after 30 ticks of scrolling at 2.6.  In the concrete world
`s7` it is still present after 30 ticks, at `x = −78`: the removal test is
`x + width < −10`, and `−78 + 70 = −8` is not below `−10`. -/
theorem c7_counterexample :
    (runTicks (List.replicate 30 tick0) s7).pipes.map Pipe.x = [-78] ∧
    (runTicks (List.replicate 30 tick0) s7).pipes ≠ [] := by
  with_unfolding_all decide

/-- C7 (amended): per pipe iteration, the obstacle is removed exactly when its
advanced `x + width` is below `−10`, and a kept obstacle's `x` decreases by
exactly `SCROLL_SPEED`; the obstacle of the scenario (`x = 0`, speed 2.6) is
therefore removed after 31 ticks, not 30 (`−80.6 + 70 = −10.6 < −10`). -/
theorem c7_removal (mx my ch : ℚ) (p : Pipe) (acc : ScoreAcc) :
    ((stepPipe mx my ch p acc).1 = none ↔ p.x - SCROLL_SPEED + p.width < -10) ∧
    (∀ q, (stepPipe mx my ch p acc).1 = some q → q.x = p.x - SCROLL_SPEED) ∧
    (runTicks (List.replicate 31 tick0) s7).pipes = [] := by
  refine ⟨?_, ?_, by with_unfolding_all decide⟩
  · unfold stepPipe
    split_ifs with h1 h2 h3 <;> simp [h1]
  · intro q hq
    unfold stepPipe at hq
    split_ifs at hq <;> (simp only [Option.some.injEq] at hq; subst hq; rfl)

/-- C7 witness: the kept-pipe clause of `c7_removal` on the scenario obstacle
after its first tick: `x` drops from 0 to `0 − SCROLL_SPEED = −2.6`. -/
theorem c7_witness :
    Pipe.x { x := -2.6, width := 70, topHeight := 100, gap := 150, passed := true } =
      (0:ℚ) - SCROLL_SPEED :=
  (c7_removal 280 100 10000 { x := 0, width := 70, topHeight := 100, gap := 150, passed := false }
    ⟨0, 0, [], false⟩).2.1
    { x := -2.6, width := 70, topHeight := 100, gap := 150, passed := true }
    (by with_unfolding_all decide)

/-- C8: a tick entered with `gameOver = true` changes nothing: `update` is the
identity on the whole world state, for every `dt` (and every pair of random
draws), so game over persists until a reset. -/
theorem c8_gameOver_freezes (s : GameState) (h : s.isGameOver = true) (dt r1 r2 : ℚ) :
    update dt r1 r2 s = s := by
  unfold update
  simp [h]

/-- C8 witness: `c8_gameOver_freezes` on the concrete game-over world `s8`. -/
theorem c8_witness : update 16 0 0 s8 = s8 := c8_gameOver_freezes s8 rfl 16 0 0

/-- C9: the collision predicate is symmetric in its two rectangles, for all
rectangle pairs. -/
theorem c9_overlap_symm (ax ay aw ah bx bY bw bh : ℚ) :
    rectsOverlap ax ay aw ah bx bY bw bh = rectsOverlap bx bY bw bh ax ay aw ah := by
  unfold rectsOverlap
  rw [Bool.eq_iff_iff]
  simp only [Bool.and_eq_true, decide_eq_true_eq, gt_iff_lt]
  constructor <;> rintro ⟨⟨⟨h1, h2⟩, h3⟩, h4⟩ <;> exact ⟨⟨⟨h2, h1⟩, h4⟩, h3⟩

/-- C10: an activate input during game over resets the world — velocity zero
(in particular not the flap impulse), player recentered, obstacles cleared,
score, spawn timer and scroll offset zeroed, game over cleared, best score
kept — and only an activate with game over false sets the velocity to
`FLAP_STRENGTH`. -/
theorem c10_flap_restart (s : GameState) :
    (s.isGameOver = true →
      (flap s).mouthVelY = 0 ∧ (flap s).mouthY = s.canvasHeight / 2 ∧
      (flap s).mouthX = s.canvasWidth * 0.28 ∧ (flap s).pipes = [] ∧
      (flap s).score = 0 ∧ (flap s).lastPipeAt = 0 ∧
      (flap s).backgroundOffset = 0 ∧ (flap s).isGameOver = false ∧
      (flap s).best = s.best ∧ (flap s).mouthVelY ≠ FLAP_STRENGTH) ∧
    (s.isGameOver = false →
      (flap s).mouthVelY = FLAP_STRENGTH ∧ (flap s).mouthY = s.mouthY ∧
      (flap s).pipes = s.pipes ∧ (flap s).score = s.score ∧
      (flap s).isGameOver = false) := by
  constructor
  · intro h
    by_cases hr : s.isRunning <;>
      simp [flap, resetGame, h, hr, FLAP_STRENGTH] <;> norm_num
  · intro h
    by_cases hr : s.isRunning <;> simp [flap, h, hr]

/-- C10 witness: the restart clause of `c10_flap_restart` on the concrete
game-over world `s8`: the restarting press leaves velocity 0 and score 0. -/
theorem c10_witness :
    s8.isGameOver = true ∧ (flap s8).mouthVelY = 0 ∧ (flap s8).score = 0 :=
  ⟨rfl, ((c10_flap_restart s8).1 rfl).1, ((c10_flap_restart s8).1 rfl).2.2.2.2.1⟩

end MouthTrap
